import Mathlib

set_option maxHeartbeats 1000000

/-!
Shallow embedding of the schedule-resolution engine in `src/script.js`.

Time model: instants are `Nat` seconds on a linear local-time line in which
every calendar day spans exactly 86400 seconds (the wall-clock encoding
`date * 86400 + timeOfDay` of the shifted `Date` values the source works
with).  Calendar-date keys (the source's "YYYY-MM-DD" strings, produced by
`dayjs(...).format` and by `toISOString().slice(0, 10)`) become day numbers
`t / 86400`; the string encoding is injective, so string equality of keys is
day-number equality.  Day 0 of the model is a Thursday, matching the Unix
epoch, so `getDay` below reproduces the JS `Date.getDay` convention.
-/

/-- Rotation label A or B. -/
inductive AB where
  | A
  | B
  deriving DecidableEq

/-- Calendar-date key of an instant: models the source `ymd`
(`dayjs(d).format("YYYY-MM-DD")`) as the day number of `t`. -/
def ymd (t : Nat) : Nat := t / 86400

/-- Weekday of a day number in the JS `Date.getDay` convention
(0 = Sunday, ..., 6 = Saturday); day 0 is a Thursday. -/
def dateWeekday (day : Nat) : Nat := (day + 4) % 7

/-- Weekday of an instant: models `d.getDay()`. -/
def getDay (t : Nat) : Nat := dateWeekday (ymd t)

/-- Source `isWeekend`: day-of-week 0 (Sunday) or 6 (Saturday). -/
def isWeekend (t : Nat) : Bool := getDay t == 0 || getDay t == 6

/-- One bell-table row: `start` and `end` as (hour, minute) pairs parsed from
the "HH:MM" strings, and a `code` that is either a single label or an A/B
label pair (the source distinguishes the two with `Array.isArray`). -/
structure BellRow where
  start : Nat × Nat
  end_ : Nat × Nat
  code : String ⊕ (String × String)
  deriving DecidableEq

/-- The two bell tables of the configuration, source fields
`schedules.regular` and `schedules.wednesday`. -/
structure ScheduleTables where
  regular : List BellRow
  wednesday : List BellRow
  deriving DecidableEq

/-- The `schoolYear` block of the configuration: range bounds as instants. -/
structure SchoolYear where
  start : Nat
  end_ : Nat
  deriving DecidableEq

/-- The schedule configuration consumed by the engine (the fields the claims
need; `offDays` holds calendar-date keys, as the source's "YYYY-MM-DD"
strings do). -/
structure ScheduleData where
  schoolYear : SchoolYear
  offDays : List Nat
  schedules : ScheduleTables
  deriving DecidableEq

/-- Source `isSchoolDay`: raw-instant range check against
`schoolYear.start` and `schoolYear.end`, weekend exclusion, and off-day
exclusion by calendar-date key (`offDays.has(ymd(d))`). -/
def isSchoolDay (sd : ScheduleData) (d : Nat) : Bool :=
  decide (sd.schoolYear.start ≤ d) && decide (d ≤ sd.schoolYear.end_)
    && !isWeekend d && !(decide (ymd d ∈ sd.offDays))

/-- Lookup in the rotation override map: models `Map.get`/`Map.has` on the
`calendarABDays` map (keys are calendar-date keys). -/
def mapGet (k : Nat) : List (Nat × AB) → Option AB
  | [] => none
  | (k', v) :: rest => if k' = k then some v else mapGet k rest

/-- Insertion into the rotation override map: models `Map.set`, which
overwrites an existing key and otherwise appends. -/
def mapSet (k : Nat) (v : AB) : List (Nat × AB) → List (Nat × AB)
  | [] => [(k, v)]
  | (k', v') :: rest =>
      if k' = k then (k, v) :: rest else (k', v') :: mapSet k v rest

/-- The counting loop of source `getABDay`:
`cur = new Date(schoolYear.start); while (cur <= d) { if (isSchoolDay(cur))
count++; cur.setDate(cur.getDate() + 1) }`.  Iteration k examines the
instant `start + k` days (same time-of-day as `start`); iterations run for
all k with `start + k * 86400 <= d`, i.e. for
`k < (d - start) / 86400 + 1` when `start <= d`, and not at all
otherwise. -/
def countLoop (sd : ScheduleData) (d : Nat) : Nat :=
  if sd.schoolYear.start ≤ d then
    (List.range ((d - sd.schoolYear.start) / 86400 + 1)).countP
      (fun k => isSchoolDay sd (sd.schoolYear.start + k * 86400))
  else 0

/-- Source `getABDay`, with the implicit inputs (`getNow()`, the loaded
`scheduleData`, the `calendarABDays` map) made explicit parameters: `null`
when not a school day, otherwise the override-map entry for the date key if
present, otherwise A on an odd count of the fallback loop and B on an even
one. -/
def getABDay (sd : ScheduleData) (calendarABDays : List (Nat × AB)) (d : Nat) :
    Option AB :=
  if isSchoolDay sd d = false then none
  else
    match mapGet (ymd d) calendarABDays with
    | some ab => some ab
    | none => some (if countLoop sd d % 2 = 1 then AB.A else AB.B)

/-- Source `isWednesday`: `dayjs(getNow()).format("dddd") === "Wednesday"`,
i.e. weekday 3. -/
def isWednesday (d : Nat) : Bool := getDay d == 3

/-- Source `todaySchedule`: the wednesday table on a Wednesday, the regular
table otherwise. -/
def todaySchedule (sd : ScheduleData) (d : Nat) : List BellRow :=
  if isWednesday d then sd.schedules.wednesday else sd.schedules.regular

/-- Source `labelFromCode`, with the ambient `getABDay() || "A"` made an
explicit `Option AB` parameter: a pair whose first element is "LUNCH" yields
its first element outright; otherwise the first element on A (or a null
rotation, via the `|| "A"` default) and the second on B. -/
def labelFromCode (ab : Option AB) (arr : String × String) : String :=
  if arr.1 = "LUNCH" then arr.1
  else match ab.getD AB.A with
    | AB.A => arr.1
    | AB.B => arr.2

/-- Label of a row as built by `buildPeriodStructure`:
`Array.isArray(row.code) ? labelFromCode(row.code) : row.code`. -/
def rowLabel (ab : Option AB) : String ⊕ (String × String) → String
  | Sum.inl s => s
  | Sum.inr arr => labelFromCode ab arr

/-- Source `parseTime`: takes the current instant's date and sets the given
hours and minutes, zeroing seconds (`d.setHours(h, m, 0, 0)`). -/
def parseTime (now : Nat) (hm : Nat × Nat) : Nat :=
  ymd now * 86400 + (hm.1 * 3600 + hm.2 * 60)

/-- The row predicate of source `getCurrent`:
`now >= parseTime(row.start) && now <= parseTime(row.end)`. -/
def isCurrentRow (now : Nat) (row : BellRow) : Bool :=
  decide (parseTime now row.start ≤ now) && decide (now ≤ parseTime now row.end_)

/-- Source `getCurrent`: the first row of today's schedule whose time range
contains `now`, both boundaries inclusive. -/
def getCurrent (sd : ScheduleData) (now : Nat) : Option BellRow :=
  (todaySchedule sd now).find? (isCurrentRow now)

/-- An event component as the importer reads it off an `ICAL.Event`:
summary, absolute start and end instants (what `toJSDate()` denotes),
optional location, and the date-only-precision flag `startDate.isDate`. -/
structure RawEvent where
  summary : String
  startDate : Nat
  endDate : Nat
  location : Option String
  isDate : Bool
  deriving DecidableEq

/-- The normalized event record the importer pushes onto `allEvents`:
`location` defaulted to the empty string (`event.location || ""`) and
`isAllDay` equal to `startDate.isDate`
(`!startDate.isDate ? false : true`). -/
structure CalEvent where
  summary : String
  startDate : Nat
  endDate : Nat
  location : String
  isAllDay : Bool
  deriving DecidableEq

/-- Build the stored event record from a parsed component. -/
def mkCalEvent (r : RawEvent) : CalEvent :=
  ⟨r.summary, r.startDate, r.endDate, r.location.getD "", r.isDate⟩

/-- The sentinel branch of the importer: on summary exactly "A Day" or
"B Day", set the override-map entry for the UTC calendar date of the start
instant (`startDate.toJSDate().toISOString().slice(0, 10)`). -/
def setAB (r : RawEvent) (m : List (Nat × AB)) : List (Nat × AB) :=
  if r.summary = "A Day" then mapSet (r.startDate / 86400) AB.A m
  else if r.summary = "B Day" then mapSet (r.startDate / 86400) AB.B m
  else m

/-- The `vevents.forEach` loop of `parseICSCalendar`.  Each component either
yields a `RawEvent` or throws (`Except.error`); a throw escapes the loop
into the function's only catch, so the accumulated `abDays`/`allEvents`
built so far are what the function returns and later components are never
examined. -/
def parseLoop :
    List (Except String RawEvent) → List (Nat × AB) × List CalEvent →
      List (Nat × AB) × List CalEvent
  | [], acc => acc
  | Except.error _ :: _, acc => acc
  | Except.ok r :: rest, acc =>
      parseLoop rest (setAB r acc.1, acc.2 ++ [mkCalEvent r])

/-- Source `parseICSCalendar`: `ICAL.parse` of the feed either throws
(caught: empty map, empty list) or yields the component list, which the
loop processes. -/
def parseICSCalendar (feed : Except String (List (Except String RawEvent))) :
    List (Nat × AB) × List CalEvent :=
  match feed with
  | Except.error _ => ([], [])
  | Except.ok comps => parseLoop comps ([], [])

/-- Start of an instant's calendar day: models
`dayjs(getNow()).startOf("day")`. -/
def startOfDay (t : Nat) : Nat := ymd t * 86400

/-- Ordering of events by start instant, the comparator
`a.startDate - b.startDate` of the source's sort. -/
def startLE (a b : CalEvent) : Prop := a.startDate ≤ b.startDate

instance : DecidableRel startLE := fun a b =>
  inferInstanceAs (Decidable (a.startDate ≤ b.startDate))

instance : IsTotal CalEvent startLE := ⟨fun x y => Nat.le_total x.startDate y.startDate⟩

instance : IsTrans CalEvent startLE := ⟨fun _ _ _ => Nat.le_trans⟩

/-- Source `getTodaysEvents`: keep events that start on today's calendar
date, or start strictly before the start of today and end strictly after
it, then sort ascending by start instant. -/
def getTodaysEvents (now : Nat) (allCalendarEvents : List CalEvent) :
    List CalEvent :=
  (allCalendarEvents.filter fun e =>
      decide (ymd e.startDate = ymd now)
        || (decide (e.startDate < startOfDay now)
              && decide (startOfDay now < e.endDate))).insertionSort startLE

/-- Modelled from the claim's words for C3: the date-level school-day
predicate — the date lies between the calendar dates of `schoolYear.start`
and `schoolYear.end`, is not a weekend day, and is not an off-day. -/
def dateIsSchoolDay (sd : ScheduleData) (day : Nat) : Bool :=
  decide (ymd sd.schoolYear.start ≤ day) && decide (day ≤ ymd sd.schoolYear.end_)
    && !(dateWeekday day == 0) && !(dateWeekday day == 6)
    && !(decide (day ∈ sd.offDays))

/-- Modelled from the claim's words for C3: the number of school days among
the calendar dates from `schoolYear.start`'s date through `d`'s date
inclusive. -/
def specSchoolDayCount (sd : ScheduleData) (d : Nat) : Nat :=
  (List.range (ymd d - ymd sd.schoolYear.start + 1)).countP
    (fun k => dateIsSchoolDay sd (ymd sd.schoolYear.start + k))

/-- Modelled from the claim's words for C9: the local calendar date of an
absolute instant for a feed whose clock runs `off` seconds ahead of UTC. -/
def feedLocalDate (off t : Nat) : Nat := (t + off) / 86400

/-! Concrete fixtures used by boundary conjuncts, witnesses and
counterexamples. -/

/-- A minimal configuration: year starts at instant 0 (midnight of day 0, a
Thursday) and ends at the last second of day 99, no off-days, empty
tables. -/
def sd0 : ScheduleData := ⟨⟨0, 99 * 86400 + 86399⟩, [], ⟨[], []⟩⟩

/-- The 09:00–09:04 row of the boundary-inclusivity scenario. -/
def row9 : BellRow := ⟨(9, 0), (9, 4), Sum.inl "X"⟩

/-- A configuration whose regular table holds only `row9`. -/
def sdRow9 : ScheduleData := ⟨⟨0, 99 * 86400 + 86399⟩, [], ⟨[row9], []⟩⟩

/-- A configuration whose year starts on a Monday (day 4) at 10:00, used to
exhibit the parity drift of the fallback count. -/
def sdCx : ScheduleData := ⟨⟨4 * 86400 + 36000, 100 * 86400⟩, [], ⟨[], []⟩⟩

/-- A configuration whose year ends on a Monday (day 4) at 15:00, used for
the range-end boundary. -/
def sdC10 : ScheduleData := ⟨⟨0, 4 * 86400 + 54000⟩, [], ⟨[], []⟩⟩

/-- A well-formed non-sentinel event component. -/
def evClub : RawEvent := ⟨"Club", 1000, 2000, none, false⟩

/-- A sentinel component whose absolute start is 22:30 UTC of day 0, i.e.
00:30 of day 1 on the clock of a feed running two hours ahead of UTC. -/
def evC9 : RawEvent := ⟨"A Day", 81000, 84600, none, false⟩

/-! Helper lemmas shared by the claim theorems. -/

/-- Propositional reading of `isSchoolDay`. -/
theorem isSchoolDay_iff (sd : ScheduleData) (d : Nat) :
    isSchoolDay sd d = true ↔
      sd.schoolYear.start ≤ d ∧ d ≤ sd.schoolYear.end_ ∧
        getDay d ≠ 0 ∧ getDay d ≠ 6 ∧ ymd d ∉ sd.offDays := by
  simp [isSchoolDay, isWeekend, and_assoc, not_or]

/-- Propositional reading of `dateIsSchoolDay`. -/
theorem dateIsSchoolDay_iff (sd : ScheduleData) (day : Nat) :
    dateIsSchoolDay sd day = true ↔
      ymd sd.schoolYear.start ≤ day ∧ day ≤ ymd sd.schoolYear.end_ ∧
        dateWeekday day ≠ 0 ∧ dateWeekday day ≠ 6 ∧ day ∉ sd.offDays := by
  simp [dateIsSchoolDay, and_assoc]

/-- Source: the classifier returns null whenever the day is not a school
day. -/
theorem getABDay_eq_none (sd : ScheduleData) (ab : List (Nat × AB)) (d : Nat)
    (h : isSchoolDay sd d = false) : getABDay sd ab d = none := by
  simp [getABDay, h]

/-- Source: on a school day with an override entry, the entry is
returned. -/
theorem getABDay_of_mapGet (sd : ScheduleData) (ab : List (Nat × AB)) (d : Nat)
    (lab : AB) (h1 : isSchoolDay sd d = true)
    (h2 : mapGet (ymd d) ab = some lab) : getABDay sd ab d = some lab := by
  simp [getABDay, h1, h2]

/-- Source: on a school day with no override entry, the parity of the
counting loop decides the rotation. -/
theorem getABDay_of_noOverride (sd : ScheduleData) (ab : List (Nat × AB))
    (d : Nat) (h1 : isSchoolDay sd d = true)
    (h2 : mapGet (ymd d) ab = none) :
    getABDay sd ab d = some (if countLoop sd d % 2 = 1 then AB.A else AB.B) := by
  simp [getABDay, h1, h2]

/-- Propositional reading of the current-row predicate. -/
theorem isCurrentRow_iff (now : Nat) (r : BellRow) :
    isCurrentRow now r = true ↔
      parseTime now r.start ≤ now ∧ now ≤ parseTime now r.end_ := by
  simp [isCurrentRow]

/-! Claim theorems. -/

/-- C1: for every bell table and instant, the current-period match is the
first row in table order with `row.start <= now <= row.end`, both
boundaries inclusive; for the 09:00 to 09:04 row, 09:00:00 and 09:04:00
both match as current and 09:04:01 does not. -/
theorem c1_current_period_first_inclusive_match :
    (∀ (sd : ScheduleData) (now : Nat) (row : BellRow),
        getCurrent sd now = some row ↔
          (parseTime now row.start ≤ now ∧ now ≤ parseTime now row.end_) ∧
            ∃ l1 l2, todaySchedule sd now = l1 ++ row :: l2 ∧
              ∀ r ∈ l1,
                ¬(parseTime now r.start ≤ now ∧ now ≤ parseTime now r.end_))
    ∧ getCurrent sdRow9 32400 = some row9
    ∧ getCurrent sdRow9 32640 = some row9
    ∧ getCurrent sdRow9 32641 = none := by
  refine ⟨?_, by decide, by decide, by decide⟩
  intro sd now row
  rw [getCurrent, List.find?_eq_some]
  constructor
  · rintro ⟨hb, l1, l2, hsplit, hl1⟩
    refine ⟨(isCurrentRow_iff now row).mp hb, l1, l2, hsplit, ?_⟩
    intro r hr hcon
    have := hl1 r hr
    rw [Bool.not_eq_eq_eq_not, Bool.not_true] at this
    exact absurd ((isCurrentRow_iff now r).mpr hcon) (by simp [this])
  · rintro ⟨hp, l1, l2, hsplit, hl1⟩
    refine ⟨(isCurrentRow_iff now row).mpr hp, l1, l2, hsplit, ?_⟩
    intro r hr
    have : isCurrentRow now r = false := by
      cases hc : isCurrentRow now r with
      | false => rfl
      | true => exact absurd ((isCurrentRow_iff now r).mp hc) (hl1 r hr)
    simp [this]

/-- C1 witness: the characterization applied at the standard boundary
scenario. -/
theorem c1_witness : getCurrent sdRow9 32400 = some row9 :=
  c1_current_period_first_inclusive_match.2.1

/-- C2: the classifier reports a school day exactly when the instant lies in
the configured range inclusive, on a non-weekend day, with its date not in
the off-day list; every instant failing the predicate gets rotation null. -/
theorem c2_school_day_and_null_rotation :
    ∀ (sd : ScheduleData) (ab : List (Nat × AB)) (d : Nat),
      (isSchoolDay sd d = true ↔
        sd.schoolYear.start ≤ d ∧ d ≤ sd.schoolYear.end_ ∧
          getDay d ≠ 0 ∧ getDay d ≠ 6 ∧ ymd d ∉ sd.offDays)
      ∧ (isSchoolDay sd d = false → getABDay sd ab d = none) :=
  fun sd ab d => ⟨isSchoolDay_iff sd d, getABDay_eq_none sd ab d⟩

/-- C2 witness: day 2 of the model is a Saturday, so instant 172800 is not a
school day and its rotation is null. -/
theorem c2_witness : getABDay sd0 [] 172800 = none :=
  (c2_school_day_and_null_rotation sd0 [] 172800).2 (by decide)

/-- C4: on a school day whose date has an override entry, the classifier
returns that entry verbatim, whatever the fallback would compute. -/
theorem c4_override_wins (sd : ScheduleData) (ab : List (Nat × AB)) (d : Nat)
    (lab : AB) (h1 : isSchoolDay sd d = true)
    (h2 : mapGet (ymd d) ab = some lab) :
    getABDay sd ab d = some lab :=
  getABDay_of_mapGet sd ab d lab h1 h2

/-- C4 witness: day 4 (a Monday) with an override entry B; the computed
parity for that day would be A (it is an odd-numbered school day), yet the
override is returned. -/
theorem c4_witness : getABDay sd0 [(4, AB.B)] 345600 = some AB.B :=
  c4_override_wins sd0 [(4, AB.B)] 345600 AB.B (by decide) (by decide)

/-- C7 counterexample: for the pair code ("LUNCH", "B5") on a B rotation the
displayed label is "LUNCH", the first element, not the second element "B5"
required by the claim. -/
theorem c7_counterexample :
    rowLabel (some AB.B) (Sum.inr ("LUNCH", "B5")) = "LUNCH"
      ∧ ("LUNCH" : String) ≠ "B5" := by
  exact ⟨rfl, by decide⟩

/-- C7 (amended): a paired code whose first element is not "LUNCH" resolves
to the first element on rotation A and the second on rotation B; a pair
whose first element is "LUNCH" displays "LUNCH" on either rotation; a
non-paired code passes through unchanged. -/
theorem c7_label_resolution :
    ∀ (ab : AB) (p : String × String) (s : String),
      (p.1 ≠ "LUNCH" →
        labelFromCode (some ab) p =
          (match ab with | AB.A => p.1 | AB.B => p.2))
      ∧ (p.1 = "LUNCH" → labelFromCode (some ab) p = "LUNCH")
      ∧ rowLabel (some ab) (Sum.inl s) = s := by
  intro ab p s
  refine ⟨?_, ?_, rfl⟩
  · intro h
    cases ab <;> simp [labelFromCode, h]
  · intro h
    simp [labelFromCode, h]

/-- C7 witness: the resolution applied to a concrete pair on each rotation
and to a concrete plain code. -/
theorem c7_witness :
    labelFromCode (some AB.A) ("A1", "B1") = "A1"
      ∧ labelFromCode (some AB.B) ("A1", "B1") = "B1"
      ∧ rowLabel (some AB.B) (Sum.inl "FLEX") = "FLEX" :=
  ⟨(c7_label_resolution AB.A ("A1", "B1") "FLEX").1 (by decide),
   (c7_label_resolution AB.B ("A1", "B1") "FLEX").1 (by decide),
   (c7_label_resolution AB.B ("A1", "B1") "FLEX").2.2⟩

/-- C8: the selector returns the reduced (wednesday) table exactly on
weekday 3 and the standard (regular) table otherwise, as a function of the
weekday alone. -/
theorem c8_wednesday_selector :
    ∀ (sd : ScheduleData) (d : Nat),
      todaySchedule sd d =
        (if getDay d = 3 then sd.schedules.wednesday else sd.schedules.regular)
      ∧ ∀ d2, getDay d2 = getDay d → todaySchedule sd d2 = todaySchedule sd d := by
  intro sd d
  constructor
  · by_cases h : getDay d = 3 <;> simp [todaySchedule, isWednesday, h]
  · intro d2 h
    simp [todaySchedule, isWednesday, h]

/-- C8 witness: day 7 and day 0 share a weekday (both Thursdays), hence the
same table; instant 518400 is a Wednesday and selects the wednesday
table. -/
theorem c8_witness :
    todaySchedule sd0 604800 = todaySchedule sd0 0
      ∧ todaySchedule sdRow9 518400 =
          (if getDay 518400 = 3 then sdRow9.schedules.wednesday
            else sdRow9.schedules.regular) :=
  ⟨(c8_wednesday_selector sd0 0).2 604800 (by decide),
   (c8_wednesday_selector sdRow9 518400).1⟩

/-- C5: the resolved day view contains exactly the events that start on the
current calendar date or span across it from an earlier day, sorted
ascending by start instant. -/
theorem c5_events_on_day :
    ∀ (now : Nat) (events : List CalEvent),
      (getTodaysEvents now events).Perm
        (events.filter fun e =>
          decide (ymd e.startDate = ymd now)
            || (decide (e.startDate < startOfDay now)
                  && decide (startOfDay now < e.endDate)))
      ∧ List.Sorted startLE (getTodaysEvents now events)
      ∧ ∀ e, e ∈ getTodaysEvents now events ↔
          e ∈ events ∧ (ymd e.startDate = ymd now ∨
            (e.startDate < startOfDay now ∧ startOfDay now < e.endDate)) := by
  intro now events
  refine ⟨?_, ?_, ?_⟩
  · simp only [getTodaysEvents]
    exact List.perm_insertionSort _ _
  · simp only [getTodaysEvents]
    exact List.sorted_insertionSort _ _
  · intro e
    simp only [getTodaysEvents, List.mem_insertionSort, List.mem_filter]
    simp

/-- C5 witness: the sortedness component applied to a concrete instant and
event list. -/
theorem c5_witness :
    List.Sorted startLE (getTodaysEvents 0 [mkCalEvent evClub]) :=
  (c5_events_on_day 0 [mkCalEvent evClub]).2.1

/-- The loop of the importer never looks past the first throwing component:
the accumulated state at the throw is the result. -/
theorem parseLoop_stops (pre : List RawEvent) (msg : String)
    (post : List (Except String RawEvent))
    (acc : List (Nat × AB) × List CalEvent) :
    parseLoop (pre.map Except.ok ++ Except.error msg :: post) acc
      = parseLoop (pre.map Except.ok) acc := by
  induction pre generalizing acc with
  | nil => rfl
  | cons r rs ih =>
      simp only [List.map_cons, List.cons_append, parseLoop]
      exact ih _

/-- C6 counterexample: in a feed whose first component is malformed and
whose second is the well-formed event `evClub`, the importer returns no
events at all, although importing `evClub` alone succeeds; the remaining
well-formed component was aborted by the malformed one. -/
theorem c6_counterexample :
    (parseICSCalendar (Except.ok [Except.error "bad line",
        Except.ok evClub])).2 = []
      ∧ (parseICSCalendar (Except.ok [Except.ok evClub])).2
          = [mkCalEvent evClub] :=
  ⟨rfl, rfl⟩

/-- C6 (amended): the importer is total — it never propagates an exception;
a feed failing to parse at the top level yields an empty override map and
event list; a malformed event component, however, aborts processing of all
later components: the result is exactly the import of the well-formed
prefix before the first malformed component. -/
theorem c6_importer_failure_containment :
    (∀ msg, parseICSCalendar (Except.error msg) = ([], []))
    ∧ (∀ (pre : List RawEvent) (msg : String)
        (post : List (Except String RawEvent)),
        parseICSCalendar
            (Except.ok (pre.map Except.ok ++ Except.error msg :: post))
          = parseICSCalendar (Except.ok (pre.map Except.ok))) :=
  ⟨fun _ => rfl, fun pre msg post => parseLoop_stops pre msg post ([], [])⟩

/-- C9 counterexample: the sentinel event `evC9` starts at 22:30 UTC of day
0, which is 00:30 of day 1 on the clock of a feed running two hours ahead
of UTC; the importer keys the override by the UTC date (day 0), so the map
has no entry at the feed-local date (day 1) the claim requires. -/
theorem c9_counterexample :
    feedLocalDate 7200 evC9.startDate = 1
      ∧ (parseICSCalendar (Except.ok [Except.ok evC9])).1 = [(0, AB.A)]
      ∧ mapGet (feedLocalDate 7200 evC9.startDate)
          (parseICSCalendar (Except.ok [Except.ok evC9])).1 = none := by
  refine ⟨rfl, by decide, by decide⟩

/-- C9 (amended): a sentinel event is recorded under the UTC calendar date
of its start instant; the classifier looks overrides up by the engine-local
date of the queried instant, so the entry governs exactly the school-day
instants whose engine-local date equals that UTC date, and elsewhere the
classifier behaves as if there were no override. -/
theorem c9_sentinel_override_key :
    ∀ (s e : Nat) (loc : Option String) (isD : Bool) (lab : AB)
      (sd : ScheduleData) (d : Nat),
      (parseICSCalendar (Except.ok
          [Except.ok ⟨(match lab with | AB.A => "A Day" | AB.B => "B Day"),
            s, e, loc, isD⟩])).1 = [(s / 86400, lab)]
      ∧ (isSchoolDay sd d = true → ymd d = s / 86400 →
          getABDay sd [(s / 86400, lab)] d = some lab)
      ∧ (ymd d ≠ s / 86400 →
          getABDay sd [(s / 86400, lab)] d = getABDay sd [] d) := by
  intro s e loc isD lab sd d
  refine ⟨?_, ?_, ?_⟩
  · cases lab <;> simp [parseICSCalendar, parseLoop, setAB, mapSet]
  · intro h1 h2
    apply getABDay_of_mapGet sd _ d lab h1
    rw [mapGet, if_pos h2.symm]
  · intro h
    have hnone : mapGet (ymd d) [(s / 86400, lab)] = none := by
      rw [mapGet, if_neg (fun hh => h hh.symm)]
      rfl
    have hnil : mapGet (ymd d) ([] : List (Nat × AB)) = none := rfl
    simp only [getABDay, hnone, hnil]

/-- C9 witness: the key facts at the concrete sentinel `evC9` (start 81000,
UTC date 0): the override governs instant 3600 (date 0, a school-day
Thursday) and is invisible at instant 90000 (date 1). -/
theorem c9_witness :
    (parseICSCalendar (Except.ok [Except.ok ⟨"A Day", 81000, 84600,
        none, false⟩])).1 = [(0, AB.A)]
      ∧ getABDay sd0 [(0, AB.A)] 3600 = some AB.A
      ∧ getABDay sd0 [(0, AB.A)] 90000 = getABDay sd0 [] 90000 :=
  ⟨(c9_sentinel_override_key 81000 84600 none false AB.A sd0 3600).1,
   (c9_sentinel_override_key 81000 84600 none false AB.A sd0 3600).2.1
     (by decide) (by decide),
   (c9_sentinel_override_key 81000 84600 none false AB.A sd0 90000).2.2
     (by decide)⟩

/-- C10 counterexample: in `sdC10` the year ends on day 4 (a Monday) at
15:00; the instant 403200 is 16:00 of that same calendar day — a weekday,
not an off-day, at or after the year start — yet the classifier puts it out
of range: it is not a school day and its rotation is null. -/
theorem c10_counterexample :
    ymd 403200 = ymd sdC10.schoolYear.end_
      ∧ sdC10.schoolYear.start ≤ 403200
      ∧ sdC10.schoolYear.end_ < 403200
      ∧ getDay 403200 ≠ 0 ∧ getDay 403200 ≠ 6
      ∧ ymd 403200 ∉ sdC10.offDays
      ∧ isSchoolDay sdC10 403200 = false
      ∧ getABDay sdC10 [] 403200 = none := by
  decide

/-- C10 (amended): the range check compares raw instants, so an instant on
`config.end`'s calendar day is within the school-year range iff it is at or
before `config.end` itself: strictly after it the day is not a school day,
while at or before it (on a weekday not in the off-day list, at or after
the start) it is. -/
theorem c10_range_end_is_raw_instant_compare :
    ∀ (sd : ScheduleData) (d : Nat), ymd d = ymd sd.schoolYear.end_ →
      (sd.schoolYear.end_ < d → isSchoolDay sd d = false)
      ∧ (sd.schoolYear.start ≤ d → d ≤ sd.schoolYear.end_ →
          getDay d ≠ 0 → getDay d ≠ 6 → ymd d ∉ sd.offDays →
          isSchoolDay sd d = true) := by
  intro sd d _
  constructor
  · intro h
    have hn : ¬(d ≤ sd.schoolYear.end_) := Nat.not_le.mpr h
    simp [isSchoolDay, hn]
  · intro h1 h2 h3 h4 h5
    exact (isSchoolDay_iff sd d).mpr ⟨h1, h2, h3, h4, h5⟩

/-- C10 witness: both branches at the `sdC10` boundary — 16:00 of the final
day is not a school day, 15:00 (the configured end instant itself) is. -/
theorem c10_witness :
    isSchoolDay sdC10 403200 = false ∧ isSchoolDay sdC10 399600 = true :=
  ⟨(c10_range_end_is_raw_instant_compare sdC10 403200 (by decide)).1
      (by decide),
   (c10_range_end_is_raw_instant_compare sdC10 399600 (by decide)).2
      (by decide) (by decide) (by decide) (by decide) (by decide)⟩

/-- When the year starts at a midnight, the instant examined by iteration k
of the counting loop is the midnight of the k-th date after the start date,
and its instant-level school-day status coincides with the date-level
predicate of that date. -/
theorem isSchoolDay_shift (sd : ScheduleData)
    (hmid : sd.schoolYear.start % 86400 = 0) (k : Nat) :
    isSchoolDay sd (sd.schoolYear.start + k * 86400)
      = dateIsSchoolDay sd (ymd sd.schoolYear.start + k) := by
  have hymd : ymd (sd.schoolYear.start + k * 86400)
      = ymd sd.schoolYear.start + k := by
    unfold ymd
    omega
  have hE : (sd.schoolYear.start + k * 86400 ≤ sd.schoolYear.end_)
      ↔ (ymd sd.schoolYear.start + k ≤ ymd sd.schoolYear.end_) := by
    unfold ymd
    omega
  have hS : (sd.schoolYear.start ≤ sd.schoolYear.start + k * 86400)
      ↔ (ymd sd.schoolYear.start ≤ ymd sd.schoolYear.start + k) := by
    constructor <;> intro <;> omega
  rw [Bool.eq_iff_iff, isSchoolDay_iff, dateIsSchoolDay_iff]
  simp only [getDay, hymd, hE, hS]

/-- When the year starts at a midnight, the counting loop counts exactly the
school days among the calendar dates from the start date through the date
of the queried instant. -/
theorem countLoop_eq_spec (sd : ScheduleData) (d : Nat)
    (hmid : sd.schoolYear.start % 86400 = 0)
    (hle : sd.schoolYear.start ≤ d) :
    countLoop sd d = specSchoolDayCount sd d := by
  unfold countLoop specSchoolDayCount
  rw [if_pos hle]
  have hn : (d - sd.schoolYear.start) / 86400 + 1
      = ymd d - ymd sd.schoolYear.start + 1 := by
    unfold ymd
    omega
  rw [hn]
  exact List.countP_congr fun k _ => by rw [isSchoolDay_shift sd hmid k]

/-- An instant that is a school day has a date satisfying the date-level
school-day predicate. -/
theorem dateIsSchoolDay_of_school (sd : ScheduleData) (d : Nat)
    (hs : isSchoolDay sd d = true) : dateIsSchoolDay sd (ymd d) = true := by
  obtain ⟨h1, h2, h3, h4, h5⟩ := (isSchoolDay_iff sd d).mp hs
  simp only [getDay] at h3 h4
  exact (dateIsSchoolDay_iff sd (ymd d)).mpr
    ⟨Nat.div_le_div_right h1, Nat.div_le_div_right h2, h3, h4, h5⟩

/-- Counting over an initial segment in which only the last index satisfies
the predicate yields one. -/
theorem countP_range_last (m : Nat) (Q : Nat → Bool) (hlast : Q m = true)
    (hrest : ∀ j, j < m → Q j = false) :
    (List.range (m + 1)).countP Q = 1 := by
  rw [List.range_succ, List.countP_append]
  have h0 : (List.range m).countP Q = 0 := by
    rw [List.countP_eq_zero]
    intro a ha
    rw [List.mem_range] at ha
    simp [hrest a ha]
  rw [h0]
  simp [List.countP_cons, hlast]

/-- C3 counterexample: with a year starting on Monday 10:00 (instant
381600), the Tuesday-08:00 instant 460800 is a school day with no override;
the calendar dates from the start through it comprise two school days
(Monday and Tuesday, an even count), yet the classifier returns A: the
counting loop walks instants at the start's time-of-day and never examines
Tuesday itself. -/
theorem c3_counterexample :
    isSchoolDay sdCx 460800 = true
      ∧ mapGet (ymd 460800) [] = none
      ∧ specSchoolDayCount sdCx 460800 = 2
      ∧ getABDay sdCx [] 460800 = some AB.A
      ∧ ¬(getABDay sdCx [] 460800 = some AB.A ↔
          specSchoolDayCount sdCx 460800 % 2 = 1) := by
  decide

/-- C3 (amended): provided the configured year start falls at a midnight,
on every school-day instant with no override entry the classifier returns A
exactly when the number of school days among the calendar dates from the
start date through the instant's date inclusive is odd and B when it is
even; consequently a first school day is classified A, and rotation
strictly alternates across consecutive school days absent overrides. -/
theorem c3_parity_anchor_and_alternation :
    ∀ (sd : ScheduleData) (ab : List (Nat × AB)),
      (∀ d, sd.schoolYear.start % 86400 = 0 → isSchoolDay sd d = true →
        mapGet (ymd d) ab = none →
        getABDay sd ab d
          = some (if specSchoolDayCount sd d % 2 = 1 then AB.A else AB.B))
      ∧ (∀ d, sd.schoolYear.start % 86400 = 0 → isSchoolDay sd d = true →
          mapGet (ymd d) ab = none →
          (∀ D, D < ymd d → dateIsSchoolDay sd D = false) →
          getABDay sd ab d = some AB.A)
      ∧ (∀ d1 d2, sd.schoolYear.start % 86400 = 0 →
          isSchoolDay sd d1 = true → isSchoolDay sd d2 = true →
          mapGet (ymd d1) ab = none → mapGet (ymd d2) ab = none →
          ymd d1 < ymd d2 →
          (∀ D, D < ymd d2 → ymd d1 < D → dateIsSchoolDay sd D = false) →
          getABDay sd ab d1 ≠ getABDay sd ab d2) := by
  intro sd ab
  refine ⟨?_, ?_, ?_⟩
  · intro d hmid hs hov
    rw [getABDay_of_noOverride sd ab d hs hov,
      countLoop_eq_spec sd d hmid ((isSchoolDay_iff sd d).mp hs).1]
  · intro d hmid hs hov hfirst
    rw [getABDay_of_noOverride sd ab d hs hov,
      countLoop_eq_spec sd d hmid ((isSchoolDay_iff sd d).mp hs).1]
    have ha : ymd sd.schoolYear.start ≤ ymd d :=
      Nat.div_le_div_right ((isSchoolDay_iff sd d).mp hs).1
    have hc : specSchoolDayCount sd d = 1 := by
      unfold specSchoolDayCount
      apply countP_range_last
      · show dateIsSchoolDay sd
          (ymd sd.schoolYear.start + (ymd d - ymd sd.schoolYear.start)) = true
        have heq : ymd sd.schoolYear.start + (ymd d - ymd sd.schoolYear.start)
            = ymd d := by omega
        rw [heq]
        exact dateIsSchoolDay_of_school sd d hs
      · intro j hj
        show dateIsSchoolDay sd (ymd sd.schoolYear.start + j) = false
        exact hfirst _ (by omega)
    rw [hc]
    rfl
  · intro d1 d2 hmid hs1 hs2 hov1 hov2 hlt hbet
    rw [getABDay_of_noOverride sd ab d1 hs1 hov1,
      countLoop_eq_spec sd d1 hmid ((isSchoolDay_iff sd d1).mp hs1).1,
      getABDay_of_noOverride sd ab d2 hs2 hov2,
      countLoop_eq_spec sd d2 hmid ((isSchoolDay_iff sd d2).mp hs2).1]
    have ha1 : ymd sd.schoolYear.start ≤ ymd d1 :=
      Nat.div_le_div_right ((isSchoolDay_iff sd d1).mp hs1).1
    have key : specSchoolDayCount sd d2 = specSchoolDayCount sd d1 + 1 := by
      unfold specSchoolDayCount
      have hsplit : ymd d2 - ymd sd.schoolYear.start + 1
          = (ymd d1 - ymd sd.schoolYear.start + 1) + (ymd d2 - ymd d1) := by
        omega
      rw [hsplit, List.range_add, List.countP_append, List.countP_map]
      have htail : (List.range (ymd d2 - ymd d1)).countP
          ((fun k => dateIsSchoolDay sd (ymd sd.schoolYear.start + k)) ∘
            (fun x => (ymd d1 - ymd sd.schoolYear.start + 1) + x)) = 1 := by
        have hm : ymd d2 - ymd d1 = (ymd d2 - ymd d1 - 1) + 1 := by omega
        rw [hm]
        apply countP_range_last
        · show dateIsSchoolDay sd (ymd sd.schoolYear.start +
            ((ymd d1 - ymd sd.schoolYear.start + 1) +
              (ymd d2 - ymd d1 - 1))) = true
          have heq : ymd sd.schoolYear.start +
              ((ymd d1 - ymd sd.schoolYear.start + 1) +
                (ymd d2 - ymd d1 - 1)) = ymd d2 := by omega
          rw [heq]
          exact dateIsSchoolDay_of_school sd d2 hs2
        · intro j hj
          show dateIsSchoolDay sd (ymd sd.schoolYear.start +
            ((ymd d1 - ymd sd.schoolYear.start + 1) + j)) = false
          apply hbet <;> omega
      rw [htail]
    rw [key]
    rcases Nat.mod_two_eq_zero_or_one (specSchoolDayCount sd d1) with h | h
    · have h1 : (specSchoolDayCount sd d1 + 1) % 2 = 1 := by omega
      simp [h, h1]
    · have h1 : (specSchoolDayCount sd d1 + 1) % 2 = 0 := by omega
      simp [h, h1]

/-- C3 witness: with the midnight-start `sd0` (day 0, a Thursday, is the
first school day): the parity form at day 1, the anchor A at day 0, and
alternation between days 0 and 1. -/
theorem c3_witness :
    getABDay sd0 [] 86400
        = some (if specSchoolDayCount sd0 86400 % 2 = 1 then AB.A else AB.B)
      ∧ getABDay sd0 [] 0 = some AB.A
      ∧ getABDay sd0 [] 0 ≠ getABDay sd0 [] 86400 :=
  ⟨(c3_parity_anchor_and_alternation sd0 []).1 86400 rfl (by decide) rfl,
   (c3_parity_anchor_and_alternation sd0 []).2.1 0 rfl (by decide) rfl
     (by decide),
   (c3_parity_anchor_and_alternation sd0 []).2.2 0 86400 rfl (by decide)
     (by decide) rfl rfl (by decide) (by decide)⟩
